import Mathlib

/-!
Verification development for the digipin-micro-saas repository.

The TypeScript source is shallowly embedded in Lean:
* JS numbers are modelled as `ℚ` (all arithmetic in the verified paths is
  exact in the rationals);
* wall-clock milliseconds (`Date.now()`) are modelled as `ℕ` and passed
  explicitly to every operation that consults the clock;
* fallible code (`throw` / `try-catch`) is modelled with `Except String`;
* the single-process mutable state (SQLite tables, the in-process `Map`
  caches, the rate-limit counter `Map`) is modelled as an explicit state
  record threaded through each operation;
* the external Nominatim collaborator is modelled as an oracle parameter
  (a function from the request to the service-call outcome).
-/

namespace DigipinSaaS

/-! ## GeocodingService (src/services/GeocodingService.ts) -/

/-- `clamp01 q = Math.max(0, Math.min(1, q))`. -/
def clamp01 (q : ℚ) : ℚ := max 0 (min 1 q)

/-- Embedding of `GeocodingService.calculateConfidence` (GeocodingService.ts:91-102):
`importanceScore = Math.min(importance * 100, 100)`,
`rankScore = Math.max(0, (30 - placeRank) / 30 * 100)`,
`confidence = (importanceScore * 0.7 + rankScore * 0.3) / 100`,
result clamped into `[0, 1]`. -/
def calculateConfidence (importance placeRank : ℚ) : ℚ :=
  let importanceScore := min (importance * 100) 100
  let rankScore := max 0 ((30 - placeRank) / 30 * 100)
  let confidence := (importanceScore * 0.7 + rankScore * 0.3) / 100
  max 0 (min 1 confidence)

/-- Modelled from the spec: the confidence-scoring contract
`confidence = clamp01((min(I×100,100)×0.7 + max(0,(30−R)/30×100)×0.3)/100)`
(spec §4.5), written from the spec's words for comparison with the
source-derived `calculateConfidence`. -/
def specConfidence (i r : ℚ) : ℚ :=
  clamp01 ((min (i * 100) 100 * 0.7 + max 0 ((30 - r) / 30 * 100) * 0.3) / 100)

/-- One processed candidate of `GeocodingService.geocode`
(GeocodingService.ts:136-161). -/
structure GeocodeResult where
  latitude : ℚ
  longitude : ℚ
  address : String
  confidence : ℚ
  displayName : String
  importance : ℚ
  placeRank : ℚ
  deriving DecidableEq, Repr

/-- One raw item of the Nominatim JSON response, after field extraction:
`parseFloat(item.importance)` may fail (modelled as `none`, defaulted to `0`
by `|| 0`), `parseInt(item.place_rank)` likewise (defaulted to `30`). -/
structure RawItem where
  lat : ℚ
  lon : ℚ
  displayName : String
  importance : Option ℚ
  placeRank : Option ℚ
  deriving DecidableEq, Repr

/-- The `response.map((item) => …)` body of `GeocodingService.geocode`
(GeocodingService.ts:136-161). -/
def toGeocodeResult (it : RawItem) : GeocodeResult :=
  let importance := it.importance.getD 0
  let placeRank := it.placeRank.getD 30
  { latitude := it.lat
    longitude := it.lon
    address := it.displayName
    confidence := calculateConfidence importance placeRank
    displayName := it.displayName
    importance := importance
    placeRank := placeRank }

/-- The comparator ordering of `results.sort((a, b) => b.confidence - a.confidence)`:
`a` precedes `b` when `b.confidence ≤ a.confidence`. -/
def confGe (a b : GeocodeResult) : Prop := b.confidence ≤ a.confidence

instance : DecidableRel confGe :=
  fun a b => inferInstanceAs (Decidable (b.confidence ≤ a.confidence))

instance : IsTotal GeocodeResult confGe :=
  ⟨fun a b => (le_total b.confidence a.confidence).imp id id⟩

instance : IsTrans GeocodeResult confGe :=
  ⟨fun _ _ _ hab hbc => le_trans hbc hab⟩

/-- `GeocodingService.geocode`'s result processing (GeocodingService.ts:136-164):
map every raw item to a scored candidate, then
`results.sort((a, b) => b.confidence - a.confidence)`.  `Array.prototype.sort`
is stable (ES2019), so the sort is modelled by the stable `insertionSort`
with the comparator's ordering. -/
def processResults (items : List RawItem) : List GeocodeResult :=
  (items.map toGeocodeResult).insertionSort confGe

/-! Stability of `insertionSort` for the confidence comparator: candidates of
any fixed confidence keep their relative (provider) order. -/

theorem filter_orderedInsert_of_eq (c : ℚ) (a : GeocodeResult) (l : List GeocodeResult)
    (ha : a.confidence = c) :
    (l.orderedInsert confGe a).filter (fun r => r.confidence = c) =
      a :: l.filter (fun r => r.confidence = c) := by
  induction l with
  | nil => simp [List.orderedInsert, List.filter, ha]
  | cons b t ih =>
    by_cases h : confGe a b
    · simp [List.orderedInsert, h, List.filter, ha]
    · have hbc : ¬ b.confidence = c := by
        simp only [confGe, not_le] at h
        rw [← ha]
        exact ne_of_gt h
      simp [List.orderedInsert, h, List.filter, hbc, ih]

theorem filter_orderedInsert_of_ne (c : ℚ) (a : GeocodeResult) (l : List GeocodeResult)
    (ha : ¬ a.confidence = c) :
    (l.orderedInsert confGe a).filter (fun r => r.confidence = c) =
      l.filter (fun r => r.confidence = c) := by
  induction l with
  | nil => simp [List.orderedInsert, List.filter, ha]
  | cons b t ih =>
    by_cases h : confGe a b
    · simp [List.orderedInsert, h, List.filter, ha]
    · simp [List.orderedInsert, h, List.filter, ih]

theorem filter_insertionSort (c : ℚ) (l : List GeocodeResult) :
    (l.insertionSort confGe).filter (fun r => r.confidence = c) =
      l.filter (fun r => r.confidence = c) := by
  induction l with
  | nil => rfl
  | cons a t ih =>
    by_cases ha : a.confidence = c
    · rw [List.insertionSort, filter_orderedInsert_of_eq c a _ ha, ih]
      simp [List.filter, ha]
    · rw [List.insertionSort, filter_orderedInsert_of_ne c a _ ha, ih]
      simp [List.filter, ha]

/-- C1: for every importance `I` and place-rank `R`, the computed confidence
equals the spec formula `clamp01((min(I×100,100)×0.7 + max(0,(30−R)/30×100)×0.3)/100)`;
importance `0.8` with place-rank `17` yields exactly `0.69`; and the candidates
returned by the service are ordered by descending confidence, ties keeping
provider order (stability), with no candidate added or dropped. -/
theorem confidence_and_ordering (i r : ℚ) (items : List RawItem) :
    calculateConfidence i r = specConfidence i r ∧
    calculateConfidence (8/10) 17 = 69/100 ∧
    (∀ g ∈ processResults items, g.confidence = specConfidence g.importance g.placeRank) ∧
    (processResults items).Pairwise confGe ∧
    (∀ c : ℚ, (processResults items).filter (fun g => g.confidence = c) =
      (items.map toGeocodeResult).filter (fun g => g.confidence = c)) ∧
    (processResults items).Perm (items.map toGeocodeResult) := by
  refine ⟨rfl, by norm_num [calculateConfidence], ?_, ?_, ?_, ?_⟩
  · intro g hg
    have hperm : (processResults items).Perm (items.map toGeocodeResult) :=
      List.perm_insertionSort confGe _
    have hg' : g ∈ items.map toGeocodeResult := hperm.mem_iff.mp hg
    obtain ⟨it, _, rfl⟩ := List.mem_map.mp hg'
    rfl
  · exact (List.sorted_insertionSort confGe _)
  · exact fun c => filter_insertionSort c _
  · exact List.perm_insertionSort confGe _

/-- Witness for `confidence_and_ordering` at a concrete provider response
(two candidates, equal confidence kept in provider order). -/
theorem confidence_and_ordering_witness :
    calculateConfidence (8/10) 17 = 69/100 ∧
    (processResults [⟨1, 2, "a", some (8/10), some 17⟩, ⟨3, 4, "b", some (8/10), some 17⟩]).map
      (fun g => g.displayName) = ["a", "b"] := by
  refine ⟨(confidence_and_ordering (8/10) 17 []).2.1, ?_⟩
  norm_num [processResults, toGeocodeResult, List.insertionSort, List.orderedInsert,
    confGe, calculateConfidence, min_def, max_def]

/-! ## Rate limiter (src/middleware/rateLimiter.ts) -/

/-- One entry of the in-memory `rateLimitStore`: `{ count, resetTime }`. -/
structure RateLimitEntry where
  count : ℕ
  resetTime : ℕ
  deriving DecidableEq, Repr

/-- One tier's configuration: `{ requests, windowMs }`. -/
structure TierLimit where
  requests : ℕ
  windowMs : ℕ
  deriving DecidableEq, Repr

/-- The result reported by `isWithinRateLimit`:
`{ allowed, remaining, resetTime }` (`remaining` is a JS number and may go
negative when `requests = 0`, hence `ℤ`). -/
structure RateLimitResult where
  allowed : Bool
  remaining : ℤ
  resetTime : ℕ
  deriving DecidableEq, Repr

/-- Embedding of the per-key core of `isWithinRateLimit`
(rateLimiter.ts): given the current entry stored under the key (if any),
the tier limit and the current time, return the result together with the
entry stored back under the key.  The probabilistic
`cleanExpiredEntries()` call is omitted: it only deletes entries with
`now > resetTime`, which the first branch already treats identically to an
absent entry (see `rateCheck_expired_eq_none`). -/
def rateCheck (entry : Option RateLimitEntry) (limit : TierLimit) (now : ℕ) :
    RateLimitResult × RateLimitEntry :=
  match entry with
  | some e =>
    if now > e.resetTime then
      (⟨true, (limit.requests : ℤ) - 1, now + limit.windowMs⟩,
        ⟨1, now + limit.windowMs⟩)
    else if e.count ≥ limit.requests then
      (⟨false, 0, e.resetTime⟩, e)
    else
      (⟨true, (limit.requests : ℤ) - (e.count + 1), e.resetTime⟩,
        ⟨e.count + 1, e.resetTime⟩)
  | none =>
    (⟨true, (limit.requests : ℤ) - 1, now + limit.windowMs⟩,
      ⟨1, now + limit.windowMs⟩)

/-- Expired entries behave exactly like absent ones, so the omitted
probabilistic purge is invisible in the results. -/
theorem rateCheck_expired_eq_none (e : RateLimitEntry) (limit : TierLimit) (now : ℕ)
    (h : now > e.resetTime) :
    rateCheck (some e) limit now = rateCheck none limit now := by
  simp [rateCheck, h]

/-- Witness for `rateCheck_expired_eq_none`. -/
theorem rateCheck_expired_eq_none_witness :
    rateCheck (some ⟨3, 5⟩) ⟨10, 60000⟩ 6 = rateCheck none ⟨10, 60000⟩ 6 :=
  rateCheck_expired_eq_none ⟨3, 5⟩ ⟨10, 60000⟩ 6 (by decide)

/-- A sequence of checks against one key, at the given request times. -/
def runRate (limit : TierLimit) (entry : Option RateLimitEntry) :
    List ℕ → List RateLimitResult × Option RateLimitEntry
  | [] => ([], entry)
  | t :: ts =>
    let step := rateCheck entry limit t
    let rest := runRate limit (some step.2) ts
    (step.1 :: rest.1, rest.2)

/-- Mid-window run: starting from an unexpired entry with `count = c`, a run
of requests all timed within the window and fitting under the limit is fully
allowed and just increments the counter. -/
theorem runRate_allows (limit : TierLimit) :
    ∀ (ts : List ℕ) (c r : ℕ), (∀ t ∈ ts, t ≤ r) → c + ts.length ≤ limit.requests →
    ((runRate limit (some ⟨c, r⟩) ts).1.map (·.allowed) = ts.map (fun _ => true)) ∧
    (runRate limit (some ⟨c, r⟩) ts).2 = some ⟨c + ts.length, r⟩ := by
  intro ts
  induction ts with
  | nil => intro c r _ _; simp [runRate]
  | cons t ts ih =>
    intro c r hts hc
    have ht : ¬ t > r := not_lt.mpr (hts t (by simp))
    have hcount : ¬ c ≥ limit.requests := by
      simp only [List.length_cons] at hc
      omega
    obtain ⟨ih1, ih2⟩ := ih (c + 1) r (fun u hu => hts u (by simp [hu]))
      (by simp only [List.length_cons] at hc; omega)
    refine ⟨?_, ?_⟩
    · simp only [runRate, rateCheck, if_neg ht, if_neg hcount, List.map_cons, ih1]
    · simp only [runRate, rateCheck, if_neg ht, if_neg hcount, ih2,
        Option.some.injEq, RateLimitEntry.mk.injEq]
      simp only [List.length_cons]
      exact ⟨by omega, trivial⟩

/-- Splitting a run of rate-limit checks. -/
theorem runRate_append (limit : TierLimit) (entry : Option RateLimitEntry)
    (ts us : List ℕ) :
    runRate limit entry (ts ++ us) =
      ((runRate limit entry ts).1 ++ (runRate limit (runRate limit entry ts).2 us).1,
       (runRate limit (runRate limit entry ts).2 us).2) := by
  induction ts generalizing entry with
  | nil => simp [runRate]
  | cons t ts ih => simp [runRate, ih]

/-- C2: the rate limiter's per-key state machine behaves as specified —
a fresh or expired window starts with `count = 1`, `resetTime = now + W` and
allows the request; an in-window check with `count ≥ L` rejects with
`remaining = 0`; an in-window check with `count < L` increments the counter
and reports `remaining = L - count`.  Consequently, starting with no counter
entry, `L` requests inside one window are all allowed, the `(L+1)`-th is
rejected, and a request after the window reset time is allowed again. -/
theorem rateLimiter_windowing (L W t0 tl : ℕ) (rest : List ℕ)
    (hL : L = rest.length + 1)
    (hrest : ∀ t ∈ rest, t ≤ t0 + W) (htl : tl ≤ t0 + W) :
    (∀ (lim : TierLimit) (now : ℕ),
      rateCheck none lim now =
        (⟨true, (lim.requests : ℤ) - 1, now + lim.windowMs⟩, ⟨1, now + lim.windowMs⟩)) ∧
    (∀ (lim : TierLimit) (now : ℕ) (e : RateLimitEntry), now > e.resetTime →
      rateCheck (some e) lim now = rateCheck none lim now) ∧
    (∀ (lim : TierLimit) (now : ℕ) (e : RateLimitEntry),
      now ≤ e.resetTime → e.count ≥ lim.requests →
      rateCheck (some e) lim now = (⟨false, 0, e.resetTime⟩, e)) ∧
    (∀ (lim : TierLimit) (now : ℕ) (e : RateLimitEntry),
      now ≤ e.resetTime → e.count < lim.requests →
      rateCheck (some e) lim now =
        (⟨true, (lim.requests : ℤ) - (e.count + 1), e.resetTime⟩,
          ⟨e.count + 1, e.resetTime⟩)) ∧
    (runRate ⟨L, W⟩ none (t0 :: rest ++ [tl])).1.map (·.allowed) =
      List.replicate L true ++ [false] ∧
    (runRate ⟨L, W⟩ none (t0 :: rest ++ [tl])).2 = some ⟨L, t0 + W⟩ ∧
    (∀ t', t' > t0 + W → ((rateCheck (some ⟨L, t0 + W⟩) ⟨L, W⟩ t').1.allowed = true ∧
      (rateCheck (some ⟨L, t0 + W⟩) ⟨L, W⟩ t').2 = ⟨1, t' + W⟩)) := by
  have hrun := runRate_allows ⟨L, W⟩ rest 1 (t0 + W) hrest (by simp; omega)
  have hrej : rateCheck (some ⟨L, t0 + W⟩) ⟨L, W⟩ tl =
      (⟨false, 0, t0 + W⟩, ⟨L, t0 + W⟩) := by
    simp [rateCheck, not_lt.mpr htl]
  have hdecomp : runRate ⟨L, W⟩ none (t0 :: rest ++ [tl]) =
      ((runRate ⟨L, W⟩ none [t0]).1 ++
        ((runRate ⟨L, W⟩ (some ⟨1, t0 + W⟩) rest).1 ++
          (runRate ⟨L, W⟩ (some ⟨L, t0 + W⟩) [tl]).1),
       (runRate ⟨L, W⟩ (some ⟨L, t0 + W⟩) [tl]).2) := by
    rw [show (t0 :: rest ++ [tl]) = [t0] ++ (rest ++ [tl]) by simp,
      runRate_append, runRate_append]
    have h1 : (runRate ⟨L, W⟩ none [t0]).2 = some ⟨1, t0 + W⟩ := by
      simp [runRate, rateCheck]
    rw [h1, hrun.2, show (1 : ℕ) + rest.length = L by omega]
  have htail : (runRate ⟨L, W⟩ (some ⟨L, t0 + W⟩) [tl]) =
      ([⟨false, 0, t0 + W⟩], some ⟨L, t0 + W⟩) := by
    simp [runRate, hrej]
  refine ⟨fun lim now => rfl, fun lim now e h => by simp [rateCheck, h], ?_, ?_, ?_, ?_, ?_⟩
  · intro lim now e h1 h2
    simp [rateCheck, not_lt.mpr h1, h2]
  · intro lim now e h1 h2
    simp [rateCheck, not_lt.mpr h1, not_le.mpr h2]
  · rw [hdecomp]
    simp only [List.map_append, htail]
    rw [hrun.1]
    simp [runRate, rateCheck, List.map_const, hL, List.replicate_succ]
  · rw [hdecomp, htail]
  · intro t' ht'
    constructor <;> simp [rateCheck, ht']

/-- Witness for `rateLimiter_windowing`: limit 2 per 60000 ms window, requests
at 0, 10 and 20 ms — first two allowed, third rejected. -/
theorem rateLimiter_windowing_witness :
    (runRate ⟨2, 60000⟩ none [0, 10, 20]).1.map (·.allowed) = [true, true, false] := by
  have h := rateLimiter_windowing 2 60000 0 20 [10] rfl
    (by intro t ht; simp at ht; omega) (by omega)
  simpa using h.2.2.2.2.1

/-- Tiers of `api_keys.tier` (free | paid | enterprise). -/
inductive Tier
  | free
  | paid
  | enterprise
  deriving DecidableEq, Repr

/-- `DEFAULT_RATE_LIMITS` (rateLimiter.ts): requests per 1-minute window. -/
def DEFAULT_RATE_LIMITS : Tier → TierLimit
  | .free => ⟨10, 60 * 1000⟩
  | .paid => ⟨100, 60 * 1000⟩
  | .enterprise => ⟨1000, 60 * 1000⟩

/-! ## Grid encoder/decoder

`DigiPinModel` delegates the coordinate ⇄ code conversion to the external
`digipin` npm package (`DigiPin.getDIGIPINFromLatLon` /
`DigiPin.getLatLonFromDIGIPIN`), whose source is not part of this
repository.  Per the spec (§4.1), it is a deterministic hierarchical grid
quantisation over the valid coordinate ranges, producing a fixed-length
code over a 16-symbol alphabet, whose decode returns the reference
(center) coordinate of the finest cell. -/

/-- A rectangular cell of the grid. -/
structure Box where
  latLo : ℚ
  latHi : ℚ
  lonLo : ℚ
  lonHi : ℚ
  deriving DecidableEq, Repr

/-- Modelled from the spec: the grid scheme covers the full valid
coordinate ranges `-90 ≤ lat ≤ 90`, `-180 ≤ lon ≤ 180` (spec §4.1:
"inputs must satisfy -90≤lat≤90 and -180≤lon≤180"). -/
def initialBox : Box := ⟨-90, 90, -180, 180⟩

/-- Which quarter of `[lo, hi]` the value `x` falls in. -/
def quarterIdx (lo hi x : ℚ) : Fin 4 :=
  if x < lo + (hi - lo) / 4 then 0
  else if x < lo + 2 * ((hi - lo) / 4) then 1
  else if x < lo + 3 * ((hi - lo) / 4) then 2
  else 3

/-- The sub-cell of `b` selected by a (latitude, longitude) digit pair. -/
def childBox (b : Box) (d : Fin 4 × Fin 4) : Box :=
  let slat := (b.latHi - b.latLo) / 4
  let slon := (b.lonHi - b.lonLo) / 4
  ⟨b.latLo + (d.1 : ℚ) * slat, b.latLo + ((d.1 : ℚ) + 1) * slat,
   b.lonLo + (d.2 : ℚ) * slon, b.lonLo + ((d.2 : ℚ) + 1) * slon⟩

/-- The digit pair chosen for a point inside `b`. -/
def pointDigit (b : Box) (lat lon : ℚ) : Fin 4 × Fin 4 :=
  (quarterIdx b.latLo b.latHi lat, quarterIdx b.lonLo b.lonHi lon)

/-- Modelled from the spec: `n` levels of grid subdivision produce `n`
digit pairs (fixed-length code, spec §4.1). -/
def encodeDigits : ℕ → Box → ℚ → ℚ → List (Fin 4 × Fin 4)
  | 0, _, _, _ => []
  | n + 1, b, lat, lon =>
    let d := pointDigit b lat lon
    d :: encodeDigits n (childBox b d) lat lon

/-- The 16-symbol alphabet of the code, as a 4×4 grid flattened row-major
(latitude digit selects the row, longitude digit the column). -/
def digipinSymbols : List Char :=
  ['F', 'C', '9', '8', 'J', '3', '2', '7', 'K', '4', '5', '6', 'L', 'M', 'P', 'T']

/-- Digit pair to symbol. -/
def digitChar (d : Fin 4 × Fin 4) : Char :=
  digipinSymbols.getD (4 * d.1.val + d.2.val) 'F'

/-- Symbol back to digit pair (`none` on a character outside the alphabet). -/
def charDigit (c : Char) : Option (Fin 4 × Fin 4) :=
  let i := digipinSymbols.indexOf c
  if h : i < 16 then
    some (⟨i / 4, by omega⟩, ⟨i % 4, by omega⟩)
  else
    none

/-- Modelled from the spec: `DigiPin.getDIGIPINFromLatLon` — the
deterministic encode of the external `digipin` package (spec §4.1,
`encode(latitude, longitude) -> code | FAILS with InvalidCoordinate`):
out-of-range inputs fail; in-range inputs produce the fixed-length
(10-symbol) code of the finest grid cell containing the point.
`none` models the falsy / "Invalid coordinates" return observed by the
callers in `DigiPinModel`. -/
def getDIGIPINFromLatLon (lat lon : ℚ) : Option String :=
  if lat < -90 ∨ lat > 90 ∨ lon < -180 ∨ lon > 180 then none
  else some (String.mk ((encodeDigits 10 initialBox lat lon).map digitChar))

/-- The finest-precision grid cell containing a point. -/
def finestCell (lat lon : ℚ) : Box :=
  (encodeDigits 10 initialBox lat lon).foldl childBox initialBox

/-- The deterministic reference coordinate of a cell (its center). -/
def boxCenter (b : Box) : ℚ × ℚ :=
  ((b.latLo + b.latHi) / 2, (b.lonLo + b.lonHi) / 2)

/-- Modelled from the spec: `DigiPin.getLatLonFromDIGIPIN` — the decode of
the external `digipin` package (spec §4.1, `decode(code) -> {latitude,
longitude} | FAILS with InvalidCode`): a structurally invalid string fails
(modelled by the "Invalid DIGIPIN" return → `none`); a well-formed code
decodes to the deterministic reference coordinate of its cell. -/
def getLatLonFromDIGIPIN (code : String) : Option (ℚ × ℚ) :=
  match code.data.mapM charDigit with
  | none => none
  | some ds =>
    if ds.length = 10 then
      some (boxCenter (ds.foldl childBox initialBox))
    else
      none

/-- A point is inside a cell (inclusive bounds). -/
def inBox (b : Box) (p : ℚ × ℚ) : Prop :=
  b.latLo ≤ p.1 ∧ p.1 ≤ b.latHi ∧ b.lonLo ≤ p.2 ∧ p.2 ≤ b.lonHi

/-- The quarter chosen for an in-range value contains it. -/
theorem quarterIdx_bounds (lo hi x : ℚ) (h1 : lo ≤ x) (h2 : x ≤ hi) :
    lo + ((quarterIdx lo hi x : Fin 4) : ℚ) * ((hi - lo) / 4) ≤ x ∧
    x ≤ lo + (((quarterIdx lo hi x : Fin 4) : ℚ) + 1) * ((hi - lo) / 4) := by
  unfold quarterIdx
  split_ifs with ha hb hc <;>
    simp only [show (((0 : Fin 4)) : ℚ) = 0 from rfl, show (((1 : Fin 4)) : ℚ) = 1 from rfl,
      show (((2 : Fin 4)) : ℚ) = 2 from rfl, show (((3 : Fin 4)) : ℚ) = 3 from rfl] <;>
    exact ⟨by linarith, by linarith⟩

/-- A child cell chosen for a point of the parent cell contains the point. -/
theorem childBox_inBox (b : Box) (lat lon : ℚ) (h : inBox b (lat, lon)) :
    inBox (childBox b (pointDigit b lat lon)) (lat, lon) := by
  obtain ⟨ha, hb, hc, hd⟩ := h
  obtain ⟨hlat1, hlat2⟩ := quarterIdx_bounds b.latLo b.latHi lat ha hb
  obtain ⟨hlon1, hlon2⟩ := quarterIdx_bounds b.lonLo b.lonHi lon hc hd
  exact ⟨hlat1, hlat2, hlon1, hlon2⟩

/-- The point stays inside the cell tracked by the encoding fold. -/
theorem encode_foldl_inBox (lat lon : ℚ) :
    ∀ (n : ℕ) (b : Box), inBox b (lat, lon) →
      inBox ((encodeDigits n b lat lon).foldl childBox b) (lat, lon) := by
  intro n
  induction n with
  | zero => intro b h; simpa [encodeDigits] using h
  | succ n ih =>
    intro b h
    rw [encodeDigits, List.foldl_cons]
    exact ih (childBox b (pointDigit b lat lon)) (childBox_inBox b lat lon h)

/-- The center of a nonempty cell lies inside it. -/
theorem boxCenter_inBox (b : Box) (p : ℚ × ℚ) (h : inBox b p) :
    inBox b (boxCenter b) := by
  obtain ⟨h1, h2, h3, h4⟩ := h
  refine ⟨?_, ?_, ?_, ?_⟩ <;> simp only [boxCenter] <;> linarith

/-- Symbol encoding of digits is injectively decodable. -/
theorem charDigit_digitChar : ∀ d : Fin 4 × Fin 4, charDigit (digitChar d) = some d := by
  decide

/-- `mapM charDigit` inverts `map digitChar`. -/
theorem mapM_charDigit_map_digitChar (ds : List (Fin 4 × Fin 4)) :
    (ds.map digitChar).mapM charDigit = some ds := by
  induction ds with
  | nil => rfl
  | cons d ds ih =>
    rw [List.map_cons, List.mapM_cons, charDigit_digitChar d, ih]
    rfl

/-- An encode always produces exactly `n` digits. -/
theorem encodeDigits_length (lat lon : ℚ) :
    ∀ (n : ℕ) (b : Box), (encodeDigits n b lat lon).length = n := by
  intro n
  induction n with
  | zero => intro b; rfl
  | succ n ih => intro b; rw [encodeDigits, List.length_cons, ih]

/-- C9: for every `(lat, lon)` with `-90 ≤ lat ≤ 90` and `-180 ≤ lon ≤ 180`,
encoding succeeds, decoding the produced code succeeds, and the decoded
coordinate lies within the bounds of the finest grid cell containing the
original point (which is not necessarily the original point). -/
theorem digipin_roundtrip (lat lon : ℚ)
    (h1 : -90 ≤ lat) (h2 : lat ≤ 90) (h3 : -180 ≤ lon) (h4 : lon ≤ 180) :
    ∃ code, getDIGIPINFromLatLon lat lon = some code ∧
      getLatLonFromDIGIPIN code = some (boxCenter (finestCell lat lon)) ∧
      inBox (finestCell lat lon) (lat, lon) ∧
      inBox (finestCell lat lon) (boxCenter (finestCell lat lon)) := by
  have hrange : ¬ (lat < -90 ∨ lat > 90 ∨ lon < -180 ∨ lon > 180) := by
    push_neg
    exact ⟨not_lt.mp (not_lt.mpr h1), not_lt.mp (not_lt.mpr h2),
      not_lt.mp (not_lt.mpr h3), not_lt.mp (not_lt.mpr h4)⟩
  refine ⟨String.mk ((encodeDigits 10 initialBox lat lon).map digitChar), ?_, ?_, ?_, ?_⟩
  · simp [getDIGIPINFromLatLon, hrange]
  · show getLatLonFromDIGIPIN _ = _
    unfold getLatLonFromDIGIPIN
    rw [show (String.mk ((encodeDigits 10 initialBox lat lon).map digitChar)).data =
      (encodeDigits 10 initialBox lat lon).map digitChar from rfl]
    rw [mapM_charDigit_map_digitChar]
    simp [encodeDigits_length, finestCell]
  · exact encode_foldl_inBox lat lon 10 initialBox ⟨h1, h2, h3, h4⟩
  · exact boxCenter_inBox _ _ (encode_foldl_inBox lat lon 10 initialBox ⟨h1, h2, h3, h4⟩)

/-- Witness for `digipin_roundtrip` at the origin. -/
theorem digipin_roundtrip_witness :
    ∃ code, getDIGIPINFromLatLon 0 0 = some code ∧
      getLatLonFromDIGIPIN code = some (boxCenter (finestCell 0 0)) ∧
      inBox (finestCell 0 0) (0, 0) ∧
      inBox (finestCell 0 0) (boxCenter (finestCell 0 0)) :=
  digipin_roundtrip 0 0 (by norm_num) (by norm_num) (by norm_num) (by norm_num)

/-! ## Data model: persistent store and process state

`api_keys`, `request_logs` and `digipin_cache` rows (migrations 001-003),
the two in-process `Map`s of `DigiPinModel` and the rate-limit counter
`Map`, combined into one explicit state record. -/

/-- A row of `api_keys`.  `keyPfx` is the non-secret display prefix column.
Timestamps are epoch milliseconds. -/
structure ApiKeyRow where
  id : ℕ
  keyHash : String
  keyPfx : String
  tier : Tier
  monthlyLimit : ℕ
  currentUsage : ℕ
  usageResetDate : ℕ
  isActive : Bool
  deriving DecidableEq, Repr

/-- A row of `request_logs` (apiKeyAuth.ts:159-184). -/
structure LogRow where
  apiKeyId : Option ℕ
  endpoint : String
  method : String
  requestIp : String
  userAgent : Option String
  requestBody : Option String
  responseStatus : ℕ
  responseTimeMs : ℕ
  errorMessage : Option String
  deriving DecidableEq, Repr

/-- `GeocodeRequest` (DigiPinModel.ts:7-13). -/
structure GeocodeRequest where
  address : String
  city : Option String
  state : Option String
  pincode : Option String
  country : Option String
  deriving DecidableEq, Repr

/-- One entry of `GeocodeResponse.alternatives` (DigiPinModel.ts:35-40).
The pass-through `addressComponents` record is omitted throughout the
embedding (pure data plumbing, not consulted by any logic). -/
structure Alternative where
  digipin : String
  latitude : ℚ
  longitude : ℚ
  address : String
  confidence : ℚ
  deriving DecidableEq, Repr

/-- `GeocodeResponse` (DigiPinModel.ts:15-41). -/
structure GeocodeResponse where
  digipin : String
  latitude : ℚ
  longitude : ℚ
  address : String
  confidence : ℚ
  displayName : String
  alternatives : Option (List Alternative)
  deriving DecidableEq, Repr

/-- Response of `coordinatesToDigiPin` (DigiPinModel.ts:210). -/
structure CoordResponse where
  digipin : String
  latitude : ℚ
  longitude : ℚ
  deriving DecidableEq, Repr

/-- `ReverseGeocodeResponse` (DigiPinModel.ts:47-66). -/
structure ReverseGeocodeResponse where
  address : String
  latitude : ℚ
  longitude : ℚ
  confidence : ℚ
  displayName : String
  deriving DecidableEq, Repr

/-- `ValidationResponse` (DigiPinModel.ts:68-72); `errors` is `none` when the
source leaves the field `undefined`. -/
structure ValidationResponse where
  isValid : Bool
  digipin : String
  errors : Option (List String)
  deriving DecidableEq, Repr

/-- One autocomplete suggestion (DigiPinModel.ts:464-470). -/
structure AutoSuggestion where
  displayName : String
  address : String
  latitude : ℚ
  longitude : ℚ
  confidence : ℚ
  deriving DecidableEq, Repr

/-- `generateCacheKey(type, input)` hashes `type + ':' + JSON.stringify(input)`
with md5 (DigiPinModel.ts:102-105).  The fingerprint is modelled as the
(type, canonicalized input) pair itself — the constructor determines the
operation type, so distinct (type, input) pairs have distinct keys, which is
the intended (collision-free) behaviour of the hash. -/
inductive OpInput
  | geocodeIn (r : GeocodeRequest)
  | coordIn (lat lon : ℚ)
  | reverseIn (digipin : String)
  | validateIn (digipin : String)
  | autoIn (q : String) (lim : ℕ)
  deriving DecidableEq, Repr

/-- The values stored in the heterogeneous (`any`-typed) caches.  Because
keys are `OpInput` fingerprints, a key's constructor determines which value
constructor can be stored under it. -/
inductive CachedVal
  | geo (r : GeocodeResponse)
  | coord (r : CoordResponse)
  | rev (r : ReverseGeocodeResponse)
  | valid (v : ValidationResponse)
  | auto (l : List AutoSuggestion)
  deriving DecidableEq, Repr

/-- A row of `digipin_cache` (migration 003, DigiPinModel.ts:437-459). -/
structure DbCacheRow where
  cacheKey : OpInput
  cacheType : String
  inputData : OpInput
  outputData : CachedVal
  expiresAt : ℕ
  deriving DecidableEq, Repr

/-- The whole mutable state of the process: the three store tables, the two
in-process cache `Map`s of `DigiPinModel`, and the rate limiter's counter
`Map`. -/
structure SysState where
  apiKeys : List ApiKeyRow
  requestLogs : List LogRow
  digipinCache : List DbCacheRow
  memCache : List (OpInput × CachedVal)
  memCacheExpiry : List (OpInput × ℕ)
  rateStore : List (String × RateLimitEntry)
  deriving DecidableEq, Repr

/-- Association-list lookup (JS `Map.get`). -/
def alookup {α β : Type} [DecidableEq α] (l : List (α × β)) (k : α) : Option β :=
  (l.find? (fun p => p.1 = k)).map (·.2)

/-- JS `Map.set`: update in place when the key exists (insertion order kept),
append otherwise. -/
def mapSet {α β : Type} [DecidableEq α] (l : List (α × β)) (k : α) (v : β) :
    List (α × β) :=
  if (alookup l k).isSome then l.map (fun p => if p.1 = k then (k, v) else p)
  else l ++ [(k, v)]

/-- JS `Map.delete`. -/
def mapDelete {α β : Type} [DecidableEq α] (l : List (α × β)) (k : α) :
    List (α × β) :=
  l.filter (fun p => ¬ p.1 = k)

/-! ## DigiPinModel caches (DigiPinModel.ts:102-126, 437-459) -/

/-- The value returned by `getCachedResult` (DigiPinModel.ts:110-118): an
entry with a (truthy) expiry in the past is a miss; otherwise
`this.cache.get(cacheKey) || null`. -/
def cacheRead (memCache : List (OpInput × CachedVal)) (memCacheExpiry : List (OpInput × ℕ))
    (k : OpInput) (now : ℕ) : Option CachedVal :=
  match alookup memCacheExpiry k with
  | some expiry => if expiry ≠ 0 ∧ now > expiry then none else alookup memCache k
  | none => alookup memCache k

/-- The state mutation of `getCachedResult`: lazily evict an expired entry
from both maps. -/
def cacheReadState (s : SysState) (k : OpInput) (now : ℕ) : SysState :=
  match alookup s.memCacheExpiry k with
  | some expiry =>
    if expiry ≠ 0 ∧ now > expiry then
      { s with memCache := mapDelete s.memCache k,
               memCacheExpiry := mapDelete s.memCacheExpiry k }
    else s
  | none => s

/-- `setCachedResult` (DigiPinModel.ts:123-126). -/
def setCachedResult (s : SysState) (k : OpInput) (v : CachedVal)
    (ttlMinutes : ℕ) (now : ℕ) : SysState :=
  { s with memCache := mapSet s.memCache k v,
           memCacheExpiry := mapSet s.memCacheExpiry k (now + ttlMinutes * 60 * 1000) }

/-- `storeInDatabaseCache` (DigiPinModel.ts:437-459): `INSERT OR REPLACE`
keyed on the unique `cache_key` column, `expires_at = now + 1h`. -/
def storeInDatabaseCache (s : SysState) (ty : String) (input : OpInput)
    (output : CachedVal) (now : ℕ) : SysState :=
  { s with digipinCache :=
      s.digipinCache.filter (fun r => ¬ r.cacheKey = input) ++
        [⟨input, ty, input, output, now + 60 * 60 * 1000⟩] }

/-- JS `String.prototype.trim()`: strip leading and trailing whitespace.
Implemented structurally over the character list (unlike core
`String.trim`, this reduces inside the kernel, so concrete runs can be
checked by `rfl`/`decide`). -/
def jsTrim (s : String) : String :=
  String.mk (((s.data.dropWhile Char.isWhitespace).reverse.dropWhile
    Char.isWhitespace).reverse)

/-! ## Geocoding orchestrator (src/models/DigiPinModel.ts)

The external Nominatim collaborator is an oracle: `search` is the outcome
of `GeocodingService.geocode` (a confidence-scored, sorted candidate list,
or the service's thrown message), `reverse` of
`GeocodingService.reverseGeocode`, `auto` of
`GeocodingService.getAutocompleteSuggestions`. -/

/-- Result of `GeocodingService.reverseGeocode`. -/
structure ReverseResult where
  address : String
  latitude : ℚ
  longitude : ℚ
  confidence : ℚ
  displayName : String
  deriving DecidableEq, Repr

/-- The external geocoding collaborator's possible behaviours. -/
structure NominatimOracles where
  search : GeocodeRequest → Except String (List GeocodeResult)
  reverse : ℚ → ℚ → Except String ReverseResult
  auto : String → ℕ → Except String (List GeocodeResult)

/-- `DigiPinModel.geocode` (DigiPinModel.ts:131-205).  Thrown errors are the
`Except.error` branch; the outer `catch` prefixes every message with
`"Geocoding failed: "`.  The heterogeneous in-process cache is read through
`cacheRead`; a value of the wrong constructor under a `geocodeIn` key is
unreachable (only `geocode` writes such keys) and is mapped to the outer
catch's unknown-error shape. -/
def geocode (o : NominatimOracles) (now : ℕ) (req : GeocodeRequest) (s : SysState) :
    Except String GeocodeResponse × SysState :=
  if (jsTrim req.address) = "" then (.error "Geocoding failed: Address is required", s)
  else
    let k := OpInput.geocodeIn req
    let s1 := cacheReadState s k now
    match cacheRead s.memCache s.memCacheExpiry k now with
    | some (.geo r) => (.ok r, s1)
    | some _ => (.error "Geocoding failed: Unknown error", s1)
    | none =>
      match o.search req with
      | .error e => (.error ("Geocoding failed: " ++ e), s1)
      | .ok [] => (.error "Geocoding failed: No results found for the provided address", s1)
      | .ok (best :: others) =>
        match getDIGIPINFromLatLon best.latitude best.longitude with
        | none => (.error "Geocoding failed: Unable to generate DigiPin from geocoded coordinates", s1)
        | some pin =>
          let alternatives := (others.take 3).filterMap (fun r =>
            (getDIGIPINFromLatLon r.latitude r.longitude).map (fun p =>
              Alternative.mk p r.latitude r.longitude r.displayName r.confidence))
          let resp : GeocodeResponse :=
            ⟨pin, best.latitude, best.longitude, best.address, best.confidence,
              best.displayName, if alternatives.length > 0 then some alternatives else none⟩
          let s2 := setCachedResult s1 k (.geo resp) 60 now
          let s3 := storeInDatabaseCache s2 "geocode" k (.geo resp) now
          (.ok resp, s3)

/-- `DigiPinModel.coordinatesToDigiPin` (DigiPinModel.ts:210-257). -/
def coordinatesToDigiPin (now : ℕ) (lat lon : ℚ) (s : SysState) :
    Except String CoordResponse × SysState :=
  if lat < -90 ∨ lat > 90 then
    (.error "Coordinates to DigiPin conversion failed: Latitude must be between -90 and 90", s)
  else if lon < -180 ∨ lon > 180 then
    (.error "Coordinates to DigiPin conversion failed: Longitude must be between -180 and 180", s)
  else
    let k := OpInput.coordIn lat lon
    let s1 := cacheReadState s k now
    match cacheRead s.memCache s.memCacheExpiry k now with
    | some (.coord r) => (.ok r, s1)
    | some _ => (.error "Coordinates to DigiPin conversion failed: Unknown error", s1)
    | none =>
      match getDIGIPINFromLatLon lat lon with
      | none =>
        (.error "Coordinates to DigiPin conversion failed: Unable to generate DigiPin from the provided coordinates", s1)
      | some pin =>
        let resp : CoordResponse := ⟨pin, lat, lon⟩
        let s2 := setCachedResult s1 k (.coord resp) 60 now
        let s3 := storeInDatabaseCache s2 "coordinates-to-digipin" k (.coord resp) now
        (.ok resp, s3)

/-- `DigiPinModel.reverseGeocode` (DigiPinModel.ts:262-310). -/
def reverseGeocode (o : NominatimOracles) (now : ℕ) (digipin : String) (s : SysState) :
    Except String ReverseGeocodeResponse × SysState :=
  if (jsTrim digipin) = "" then (.error "Reverse geocoding failed: DigiPin is required", s)
  else
    let k := OpInput.reverseIn digipin
    let s1 := cacheReadState s k now
    match cacheRead s.memCache s.memCacheExpiry k now with
    | some (.rev r) => (.ok r, s1)
    | some _ => (.error "Reverse geocoding failed: Unknown error", s1)
    | none =>
      match getLatLonFromDIGIPIN (jsTrim digipin) with
      | none => (.error "Reverse geocoding failed: Invalid DigiPin format", s1)
      | some p =>
        match o.reverse p.1 p.2 with
        | .error e => (.error ("Reverse geocoding failed: " ++ e), s1)
        | .ok rr =>
          let resp : ReverseGeocodeResponse := ⟨rr.address, p.1, p.2, rr.confidence, rr.displayName⟩
          let s2 := setCachedResult s1 k (.rev resp) 60 now
          let s3 := storeInDatabaseCache s2 "reverse" k (.rev resp) now
          (.ok resp, s3)

/-- Error strings of `validate` (DigiPinModel.ts:315-380). -/
def requiredErrMsg : String := "DigiPin is required"

def lengthErrMsg : String := "DigiPin must be between 6 and 20 characters long"

def charErrMsg : String := "DigiPin can only contain alphanumeric characters, hyphens, and underscores"

def locErrMsg : String := "DigiPin does not correspond to a valid location"

/-- The character class of `/^[A-Za-z0-9\-_]+$/`. -/
def validDigipinChar (c : Char) : Bool := c.isAlphanum || c = '-' || c = '_'

/-- The cumulative structural (length + character set) errors collected for
`cleanDigiPin = digipin.trim()` (DigiPinModel.ts:333-343). -/
def structuralErrors (digipin : String) : List String :=
  (if (jsTrim digipin).length < 6 ∨ (jsTrim digipin).length > 20 then [lengthErrMsg] else []) ++
    (if ¬ (jsTrim digipin).data.all validDigipinChar then [charErrMsg] else [])

/-- The cache-miss computation of `validate` (DigiPinModel.ts:332-364),
together with the ghost observation of whether the decode
(`getLatLonFromDIGIPIN`) was attempted — the source attempts it exactly
under the `isValidDigiPin` (no structural error) guard. -/
def validateCore (digipin : String) : ValidationResponse × Bool :=
  let clean := (jsTrim digipin)
  let errs := structuralErrors digipin
  if errs = [] then
    match getLatLonFromDIGIPIN clean with
    | some _ => (⟨true, clean, none⟩, true)
    | none => (⟨false, clean, some [locErrMsg]⟩, true)
  else (⟨false, clean, some errs⟩, false)

/-- `DigiPinModel.validate` (DigiPinModel.ts:315-380).  Never fails: every
branch returns a structured `ValidationResponse`.  The `digipin` echoed by
the empty-input branch is the original (`digipin || ''`) string. -/
def validate (now : ℕ) (digipin : String) (s : SysState) :
    ValidationResponse × SysState :=
  if (jsTrim digipin) = "" then (⟨false, digipin, some [requiredErrMsg]⟩, s)
  else
    let k := OpInput.validateIn digipin
    let s1 := cacheReadState s k now
    match cacheRead s.memCache s.memCacheExpiry k now with
    | some (.valid v) => (v, s1)
    | some _ => (⟨false, digipin, some ["Validation failed: Unknown error"]⟩, s1)
    | none =>
      let r := validateCore digipin
      let s2 := setCachedResult s1 k (.valid r.1) 30 now
      let s3 := storeInDatabaseCache s2 "validate" k (.valid r.1) now
      (r.1, s3)

/-- One result entry of `batchGeocode` (DigiPinModel.ts:395-398):
`result: GeocodeResponse | { error: string }`. -/
structure BatchItem where
  input : GeocodeRequest
  result : Except String GeocodeResponse
  deriving Repr

/-- `BatchGeocodeResponse` (DigiPinModel.ts:78-86). -/
structure BatchGeocodeResponse where
  results : List BatchItem
  totalProcessed : ℕ
  successCount : ℕ
  errorCount : ℕ
  deriving Repr

/-- The sequential `for (const address of request.addresses)` loop of
`batchGeocode` (DigiPinModel.ts:403-421), threading the model state and
counting successes and failures. -/
def batchLoop (o : NominatimOracles) (now : ℕ) :
    List GeocodeRequest → SysState → List BatchItem × ℕ × ℕ × SysState
  | [], s => ([], 0, 0, s)
  | a :: rest, s =>
    let r := geocode o now a s
    let tail := batchLoop o now rest r.2
    match r.1 with
    | .ok resp => (⟨a, .ok resp⟩ :: tail.1, tail.2.1 + 1, tail.2.2.1, tail.2.2.2)
    | .error e => (⟨a, .error e⟩ :: tail.1, tail.2.1, tail.2.2.1 + 1, tail.2.2.2)

/-- `DigiPinModel.batchGeocode` (DigiPinModel.ts:385-432). -/
def batchGeocode (o : NominatimOracles) (now : ℕ) (addresses : List GeocodeRequest)
    (s : SysState) : Except String BatchGeocodeResponse × SysState :=
  if addresses.length = 0 then
    (.error "Batch geocoding failed: Addresses array is required", s)
  else if addresses.length > 100 then
    (.error "Batch geocoding failed: Maximum 100 addresses allowed per batch request", s)
  else
    let l := batchLoop o now addresses s
    (.ok ⟨l.1, addresses.length, l.2.1, l.2.2.1⟩, l.2.2.2)

/-- `DigiPinModel.getAutocompleteSuggestions` (DigiPinModel.ts:464-504).
Note: it caches in memory only — it never writes the durable cache. -/
def getAutocompleteSuggestions (o : NominatimOracles) (now : ℕ) (q : String) (lim : ℕ)
    (s : SysState) : Except String (List AutoSuggestion) × SysState :=
  if (jsTrim q).length < 3 then (.ok [], s)
  else
    let k := OpInput.autoIn q lim
    let s1 := cacheReadState s k now
    match cacheRead s.memCache s.memCacheExpiry k now with
    | some (.auto l) => (.ok l, s1)
    | some _ => (.error "Autocomplete failed: Unknown error", s1)
    | none =>
      match o.auto q lim with
      | .error e => (.error ("Autocomplete failed: " ++ e), s1)
      | .ok suggestions =>
        let results := suggestions.map (fun g =>
          AutoSuggestion.mk g.displayName g.address g.latitude g.longitude g.confidence)
        let s2 := setCachedResult s1 k (.auto results) 30 now
        (.ok results, s2)

/-! ## Request gate (src/middleware/apiKeyAuth.ts, rateLimiter.ts) and the
geocode route (src/routes/geocode.ts) -/

/-- Request metadata used by `logRequest` (url, method, ip, user agent,
serialized body, and the `startTime` stamp set on the request). -/
structure RequestMeta where
  url : String
  method : String
  ip : String
  userAgent : Option String
  body : Option String
  startTime : ℕ
  deriving DecidableEq, Repr

/-- The authentication headers: `authorization` and `x-api-key`. -/
structure ReqHeaders where
  authorization : Option String
  xApiKey : Option String
  deriving DecidableEq, Repr

/-- JS truthiness of an optional header value (`undefined` and `""` are
falsy). -/
def truthy (o : Option String) : Option String :=
  match o with
  | some str => if str = "" then none else some str
  | none => none

/-- `extractApiKey` (apiKeyAuth.ts:31-44): a `Bearer` authorization header
takes precedence; otherwise the `x-api-key` header; otherwise `null`. -/
def extractApiKey (h : ReqHeaders) : Option String :=
  match truthy h.authorization with
  | some auth =>
    if auth.startsWith "Bearer " then some (auth.drop 7)
    else truthy h.xApiKey
  | none => truthy h.xApiKey

/-- `hashApiKey` (apiKeyAuth.ts:24-26): sha256 hex digest, modelled as an
injective fingerprint (the identity). -/
def hashApiKey (apiKey : String) : String := apiKey

/-- Increment `current_usage` of the key row with the given id
(the `UPDATE api_keys SET current_usage = current_usage + 1` statement,
apiKeyAuth.ts:188-193). -/
def incUsage (ks : List ApiKeyRow) (i : ℕ) : List ApiKeyRow :=
  ks.map (fun k => if k.id = i then { k with currentUsage := k.currentUsage + 1 } else k)

/-- The log row inserted by `logRequest` (apiKeyAuth.ts:159-184); the
request body is recorded only for non-GET methods. -/
def mkLogRow (meta : RequestMeta) (now : ℕ) (apiKeyId : Option ℕ) (statusCode : ℕ)
    (errorMessage : Option String) : LogRow :=
  ⟨apiKeyId, meta.url, meta.method, meta.ip, meta.userAgent,
    (if meta.method = "GET" then none else meta.body),
    statusCode, now - meta.startTime, errorMessage⟩

/-- `logRequest` (apiKeyAuth.ts:147-199): always insert exactly one
`request_logs` row; additionally `if (apiKeyId && statusCode < 400)`
(JS truthiness: a zero id is falsy) increment the key's usage counter. -/
def logRequest (s : SysState) (meta : RequestMeta) (now : ℕ) (apiKeyId : Option ℕ)
    (statusCode : ℕ) (errorMessage : Option String) : SysState :=
  let s1 := { s with requestLogs :=
    s.requestLogs ++ [mkLogRow meta now apiKeyId statusCode errorMessage] }
  match apiKeyId with
  | some i =>
    if i ≠ 0 ∧ statusCode < 400 then { s1 with apiKeys := incUsage s1.apiKeys i }
    else s1
  | none => s1

/-- `setMonth(getMonth() + 1)`: the calendar month is modelled as a fixed
30-day duration (no claim depends on calendar arithmetic). -/
def MONTH_MS : ℕ := 30 * 24 * 60 * 60 * 1000

/-- `rolloverIfExpired`: the usage-reset applied by `apiKeyAuth`
(apiKeyAuth.ts:96-113) when `now > usage_reset_date`. -/
def postRollover (info : ApiKeyRow) (now : ℕ) : ApiKeyRow :=
  if now > info.usageResetDate then
    { info with currentUsage := 0, usageResetDate := now + MONTH_MS }
  else info

/-- Outcome of the authentication middleware: a rejection reply
(status, error code) or approval carrying the attached `apiKeyInfo`. -/
inductive AuthOutcome
  | reject (status : ℕ) (code : String)
  | proceed (info : ApiKeyRow)
  deriving DecidableEq, Repr

/-- The `UPDATE api_keys SET current_usage = 0, usage_reset_date = …`
rollover write (apiKeyAuth.ts:104-110). -/
def rolloverState (s : SysState) (info : ApiKeyRow) (now : ℕ) : SysState :=
  if now > info.usageResetDate then
    { s with apiKeys := s.apiKeys.map (fun k =>
        if k.id = info.id then
          { k with currentUsage := 0, usageResetDate := now + MONTH_MS }
        else k) }
  else s

/-- `apiKeyAuth` (apiKeyAuth.ts:49-142).  Note the source's asymmetry:
the missing-key rejection (lines 56-62) does **not** write a request log,
while the invalid-key and usage-limit rejections do. -/
def apiKeyAuth (meta : RequestMeta) (h : ReqHeaders) (now : ℕ) (s : SysState) :
    AuthOutcome × SysState :=
  match extractApiKey h with
  | none => (.reject 401 "MISSING_API_KEY", s)
  | some apiKey =>
    match s.apiKeys.find? (fun k => k.keyHash == hashApiKey apiKey && k.isActive) with
    | none =>
      (.reject 401 "INVALID_API_KEY",
        logRequest s meta now none 401 (some "Invalid API key"))
    | some info =>
      if (postRollover info now).tier ≠ .enterprise ∧
          (postRollover info now).currentUsage ≥ (postRollover info now).monthlyLimit then
        (.reject 429 "USAGE_LIMIT_EXCEEDED",
          logRequest (rolloverState s info now) meta now (some (postRollover info now).id)
            429 (some "Monthly usage limit exceeded"))
      else
        (.proceed (postRollover info now), rolloverState s info now)

/-- An HTTP reply, reduced to the fields the claims speak about. -/
structure HttpReply where
  status : ℕ
  code : Option String
  message : Option String
  deriving DecidableEq, Repr

/-- The per-key limiter key (`api_key:<id>`, rateLimiter.ts
`getRateLimitKey`); these routes run the limiter after `apiKeyAuth`, so the
authenticated branch applies. -/
def getRateLimitKey (info : ApiKeyRow) : String := "api_key:" ++ toString info.id

/-- `tieredRateLimit` (rateLimiter.ts): check the counter under the key,
store the updated entry, and either pass (`none`) or reply 429
`RATE_LIMIT_EXCEEDED` — without writing any request log. -/
def tieredRateLimit (info : ApiKeyRow) (now : ℕ) (s : SysState) :
    Option HttpReply × SysState :=
  let lim := DEFAULT_RATE_LIMITS info.tier
  let key := getRateLimitKey info
  let res := rateCheck (alookup s.rateStore key) lim now
  let s1 := { s with rateStore := mapSet s.rateStore key res.2 }
  if res.1.allowed then (none, s1)
  else (some ⟨429, some "RATE_LIMIT_EXCEEDED", none⟩, s1)

/-- JS `apiKeyInfo?.id || null` (geocode.ts:131): a zero id is falsy. -/
def truthyId (i : ℕ) : Option ℕ := if i = 0 then none else some i

/-- The `/v1/geocode` route handler (geocode.ts:90-136): 400
`MISSING_ADDRESS` on an empty address; 200 on success; every model error
mapped to 500 `GEOCODING_ERROR` carrying the thrown message; the `finally`
block logs exactly one request row on every path. -/
def geocodeHandler (o : NominatimOracles) (meta : RequestMeta) (now : ℕ)
    (body : GeocodeRequest) (info : ApiKeyRow) (s : SysState) : HttpReply × SysState :=
  if (jsTrim body.address) = "" then
    (⟨400, some "MISSING_ADDRESS", some "Address is required"⟩,
      logRequest s meta now (truthyId info.id) 400 (some "Address is required"))
  else
    match geocode o now body s with
    | (.ok _, s1) => (⟨200, none, none⟩, logRequest s1 meta now (truthyId info.id) 200 none)
    | (.error e, s1) =>
      (⟨500, some "GEOCODING_ERROR", some e⟩,
        logRequest s1 meta now (truthyId info.id) 500 (some e))

/-- The full `/v1/geocode` pipeline: `preHandler: [apiKeyAuth,
tieredRateLimit]`, then the route handler.  A preHandler that sends a reply
stops the chain, so the handler (and its `finally` log) never runs on a
middleware rejection. -/
def handleGeocodeRequest (o : NominatimOracles) (meta : RequestMeta) (h : ReqHeaders)
    (body : GeocodeRequest) (now : ℕ) (s : SysState) : HttpReply × SysState :=
  match apiKeyAuth meta h now s with
  | (.reject st code, s1) => (⟨st, some code, none⟩, s1)
  | (.proceed info, s1) =>
    match tieredRateLimit info now s1 with
    | (some rep, s2) => (rep, s2)
    | (none, s2) => geocodeHandler o meta now body info s2

/-! ## C4 — usage accounting in `logRequest` -/

/-- The usage counter of the key row with the given id. -/
def currentUsageOf (s : SysState) (i : ℕ) : Option ℕ :=
  (s.apiKeys.find? (fun k => k.id == i)).map (·.currentUsage)

/-- `N` further successful requests logged against the same key
(`repeatLog … n` = `logRequest` applied `n` times with status 200-class). -/
def repeatLog (meta : RequestMeta) (now : ℕ) (i status : ℕ) :
    ℕ → SysState → SysState
  | 0, s => s
  | n + 1, s => repeatLog meta now i status n (logRequest s meta now (some i) status none)

theorem find?_incUsage (ks : List ApiKeyRow) (i : ℕ) :
    (incUsage ks i).find? (fun k => k.id == i) =
      (ks.find? (fun k => k.id == i)).map
        (fun k => { k with currentUsage := k.currentUsage + 1 }) := by
  induction ks with
  | nil => rfl
  | cons k ks ih =>
    simp only [incUsage, List.map_cons] at ih ⊢
    by_cases h : k.id = i
    · rw [if_pos h]
      rw [List.find?_cons_of_pos _ (by simp [h]), List.find?_cons_of_pos _ (by simp [h])]
      rfl
    · rw [if_neg h]
      rw [List.find?_cons_of_neg _ (by simp [h]), List.find?_cons_of_neg _ (by simp [h]), ih]

/-- Single `logRequest` with a (truthy) key id and a success status
increments that key's usage by exactly one. -/
theorem logRequest_usage_success (s : SysState) (meta : RequestMeta) (now : ℕ)
    (err : Option String) (i status : ℕ) (hi : i ≠ 0) (hs : status < 400) :
    currentUsageOf (logRequest s meta now (some i) status err) i =
      (currentUsageOf s i).map (· + 1) := by
  unfold logRequest currentUsageOf
  simp only [if_pos (And.intro hi hs)]
  simp [find?_incUsage, Option.map_map]
  rfl

theorem repeatLog_usage (meta : RequestMeta) (now : ℕ) (i status : ℕ)
    (hi : i ≠ 0) (hs : status < 400) :
    ∀ (n : ℕ) (s : SysState),
      currentUsageOf (repeatLog meta now i status n s) i =
        (currentUsageOf s i).map (· + n) := by
  intro n
  induction n with
  | zero =>
    intro s
    cases h : currentUsageOf s i <;> simp [repeatLog, h]
  | succ n ih =>
    intro s
    rw [repeatLog, ih, logRequest_usage_success s meta now none i status hi hs]
    cases h : currentUsageOf s i
    · simp [h]
    · simp [h]
      omega

/-- C4: `logRequest` appends exactly one request-log row, and increments the
key's `current_usage` by exactly one iff the passed `apiKeyId` is non-null
and the status code is `< 400`: a success increments by one, `N` successes
increment by `N`, while a 4xx/5xx outcome or a null key id leaves every
`api_keys` row unchanged. -/
theorem recordUsage_spec (s : SysState) (meta : RequestMeta) (now : ℕ)
    (err : Option String) (i status n : ℕ) (hi : i ≠ 0) :
    ((logRequest s meta now (some i) status err).requestLogs =
      s.requestLogs ++ [mkLogRow meta now (some i) status err]) ∧
    ((logRequest s meta now none status err).requestLogs =
      s.requestLogs ++ [mkLogRow meta now none status err]) ∧
    (status < 400 →
      currentUsageOf (logRequest s meta now (some i) status err) i =
        (currentUsageOf s i).map (· + 1)) ∧
    (400 ≤ status → (logRequest s meta now (some i) status err).apiKeys = s.apiKeys) ∧
    ((logRequest s meta now none status err).apiKeys = s.apiKeys) ∧
    (status < 400 →
      currentUsageOf (repeatLog meta now i status n s) i =
        (currentUsageOf s i).map (· + n)) := by
  refine ⟨?_, ?_, ?_, ?_, ?_, ?_⟩
  · unfold logRequest
    by_cases hc : i ≠ 0 ∧ status < 400
    · simp [hc]
    · simp [hc]
  · rfl
  · exact fun hs => logRequest_usage_success s meta now err i status hi hs
  · intro hs
    unfold logRequest
    have : ¬ (i ≠ 0 ∧ status < 400) := by omega
    simp [this]
  · rfl
  · exact fun hs => repeatLog_usage meta now i status hi hs n s

/-! ## C5 — monthly usage limit enforcement -/

/-- C5: on every authenticated request, if after rollover the key is
non-enterprise with `current_usage ≥ monthly_limit`, `apiKeyAuth` rejects
with 429 `USAGE_LIMIT_EXCEEDED`; dually, whenever `apiKeyAuth` lets a
request proceed, the attached (post-rollover) key is enterprise or strictly
under its monthly limit — so such a request never reaches the
orchestrator. -/
theorem usage_limit_enforced (meta : RequestMeta) (h : ReqHeaders) (now : ℕ)
    (s : SysState) :
    (∀ info, (apiKeyAuth meta h now s).1 = .proceed info →
      info.tier = .enterprise ∨ info.currentUsage < info.monthlyLimit) ∧
    (∀ apiKey info, extractApiKey h = some apiKey →
      s.apiKeys.find? (fun k => k.keyHash == hashApiKey apiKey && k.isActive) =
        some info →
      (postRollover info now).tier ≠ .enterprise →
      (postRollover info now).currentUsage ≥ (postRollover info now).monthlyLimit →
      (apiKeyAuth meta h now s).1 = .reject 429 "USAGE_LIMIT_EXCEEDED") := by
  constructor
  · intro info hp
    unfold apiKeyAuth at hp
    split at hp
    · exact absurd hp (by simp)
    · split at hp
      · exact absurd hp (by simp)
      · split at hp
        · exact absurd hp (by simp)
        · rename_i info0 _ hcond
          simp only [AuthOutcome.proceed.injEq] at hp
          subst hp
          push_neg at hcond
          by_cases ht : (postRollover info0 now).tier = .enterprise
          · exact Or.inl ht
          · exact Or.inr (hcond ht)
  · intro apiKey info hk hf hne hge
    unfold apiKeyAuth
    split
    · rename_i heq
      rw [hk] at heq
      exact absurd heq (by simp)
    · rename_i ak heq
      rw [hk] at heq
      injection heq with heq'
      subst heq'
      split
      · rename_i heq2
        rw [hf] at heq2
        exact absurd heq2 (by simp)
      · rename_i info0 heq2
        rw [hf] at heq2
        injection heq2 with heq2'
        subst heq2'
        rw [if_pos (And.intro hne hge)]

/-- Witness for `usage_limit_enforced`: a free key at its limit is rejected
with 429. -/
theorem usage_limit_enforced_witness :
    (apiKeyAuth ⟨"/v1/geocode", "POST", "ip", none, none, 0⟩ ⟨none, some "k"⟩ 5
        ⟨[⟨1, "k", "p", .free, 10, 10, 999, true⟩], [], [], [], [], []⟩).1 =
      .reject 429 "USAGE_LIMIT_EXCEEDED" := by
  have h := (usage_limit_enforced ⟨"/v1/geocode", "POST", "ip", none, none, 0⟩
    ⟨none, some "k"⟩ 5 ⟨[⟨1, "k", "p", .free, 10, 10, 999, true⟩], [], [], [], [], []⟩).2
  exact h "k" ⟨1, "k", "p", .free, 10, 10, 999, true⟩ rfl rfl (by decide) (by decide)

/-! ## C3 — request logging per path -/

theorem logRequest_logs (s : SysState) (meta : RequestMeta) (now : ℕ)
    (kid : Option ℕ) (st : ℕ) (err : Option String) :
    (logRequest s meta now kid st err).requestLogs =
      s.requestLogs ++ [mkLogRow meta now kid st err] := by
  unfold logRequest
  cases kid with
  | none => rfl
  | some i => by_cases hc : i ≠ 0 ∧ st < 400 <;> simp [hc]

theorem cacheReadState_requestLogs (s : SysState) (k : OpInput) (now : ℕ) :
    (cacheReadState s k now).requestLogs = s.requestLogs := by
  unfold cacheReadState
  rcases h : alookup s.memCacheExpiry k with _ | e
  · rfl
  · by_cases hc : e ≠ 0 ∧ now > e <;> simp [hc]

theorem rolloverState_requestLogs (s : SysState) (info : ApiKeyRow) (now : ℕ) :
    (rolloverState s info now).requestLogs = s.requestLogs := by
  unfold rolloverState
  split <;> rfl

theorem geocode_requestLogs (o : NominatimOracles) (now : ℕ) (req : GeocodeRequest)
    (s : SysState) : (geocode o now req s).2.requestLogs = s.requestLogs := by
  unfold geocode
  by_cases hb : (jsTrim req.address) = ""
  · simp [hb]
  · simp only [if_neg hb]
    rcases hm : cacheRead s.memCache s.memCacheExpiry (OpInput.geocodeIn req) now
      with _ | v
    · simp only [hm]
      rcases hs : o.search req with e | l
      · simp [cacheReadState_requestLogs]
      · cases l with
        | nil => simp [cacheReadState_requestLogs]
        | cons best others =>
          rcases he : getDIGIPINFromLatLon best.latitude best.longitude with _ | pin
          · simp [he, cacheReadState_requestLogs]
          · simp [he, setCachedResult, storeInDatabaseCache, cacheReadState_requestLogs]
    · cases v <;> simp [hm, cacheReadState_requestLogs]

theorem tieredRateLimit_requestLogs (info : ApiKeyRow) (now : ℕ) (s : SysState) :
    (tieredRateLimit info now s).2.requestLogs = s.requestLogs := by
  simp only [tieredRateLimit]
  split <;> rfl

/-- The rate limiter middleware either passes, or replies exactly
429 `RATE_LIMIT_EXCEEDED`. -/
theorem tieredRateLimit_reply (info : ApiKeyRow) (now : ℕ) (s : SysState) :
    (tieredRateLimit info now s).1 = none ∨
    (tieredRateLimit info now s).1 = some ⟨429, some "RATE_LIMIT_EXCEEDED", none⟩ := by
  simp only [tieredRateLimit]
  split
  · exact Or.inl rfl
  · exact Or.inr rfl

/-- The route handler writes exactly one log row and replies 200, 400
`MISSING_ADDRESS`, or 500 `GEOCODING_ERROR`. -/
theorem geocodeHandler_spec (o : NominatimOracles) (meta : RequestMeta) (now : ℕ)
    (body : GeocodeRequest) (info : ApiKeyRow) (s : SysState) :
    (geocodeHandler o meta now body info s).2.requestLogs.length =
      s.requestLogs.length + 1 ∧
    ((geocodeHandler o meta now body info s).1.code = none ∨
      (geocodeHandler o meta now body info s).1.code = some "MISSING_ADDRESS" ∨
      (geocodeHandler o meta now body info s).1.code = some "GEOCODING_ERROR") := by
  unfold geocodeHandler
  by_cases hb : (jsTrim body.address) = ""
  · simp [hb, logRequest_logs]
  · simp only [if_neg hb]
    rcases hg : geocode o now body s with ⟨r, s1⟩
    have hlogs : s1.requestLogs = s.requestLogs := by
      have := geocode_requestLogs o now body s
      rw [hg] at this
      exact this
    cases r <;> simp [logRequest_logs, hlogs]

/-- C3 (counterexample): a request with neither an `x-api-key` header nor a
bearer token is answered 401 `MISSING_API_KEY`, but **no** `RequestLog` row
is written for it — `apiKeyAuth` returns before calling `logRequest` and the
route handler (whose `finally` would log) never runs. -/
theorem missing_key_writes_no_log :
    (handleGeocodeRequest
        ⟨fun _ => .error "down", fun _ _ => .error "down", fun _ _ => .error "down"⟩
        ⟨"/v1/geocode", "POST", "1.2.3.4", none, none, 0⟩ ⟨none, none⟩
        ⟨"India Gate", none, none, none, none⟩ 5
        ⟨[], [], [], [], [], []⟩).1 = ⟨401, some "MISSING_API_KEY", none⟩ ∧
    (handleGeocodeRequest
        ⟨fun _ => .error "down", fun _ _ => .error "down", fun _ _ => .error "down"⟩
        ⟨"/v1/geocode", "POST", "1.2.3.4", none, none, 0⟩ ⟨none, none⟩
        ⟨"India Gate", none, none, none, none⟩ 5
        ⟨[], [], [], [], [], []⟩).2.requestLogs.length = 0 := by
  constructor <;> rfl

/-- C3 (amended): on the `/v1/geocode` pipeline, exactly one `RequestLog`
row is written per request on every path **except** the missing-API-key
rejection and the rate-limiter rejection, which write none; in particular a
request with no credentials gets 401 `MISSING_API_KEY` with no log row,
while an unknown key gets 401 `INVALID_API_KEY` with exactly one row whose
`api_key_id` is null. -/
theorem requestLog_per_path (o : NominatimOracles) (meta : RequestMeta)
    (h : ReqHeaders) (body : GeocodeRequest) (now : ℕ) (s : SysState) :
    ((handleGeocodeRequest o meta h body now s).2.requestLogs.length =
      s.requestLogs.length +
        (if (handleGeocodeRequest o meta h body now s).1.code = some "MISSING_API_KEY" ∨
            (handleGeocodeRequest o meta h body now s).1.code = some "RATE_LIMIT_EXCEEDED"
          then 0 else 1)) ∧
    (extractApiKey h = none →
      (handleGeocodeRequest o meta h body now s).1 = ⟨401, some "MISSING_API_KEY", none⟩ ∧
      (handleGeocodeRequest o meta h body now s).2.requestLogs = s.requestLogs) ∧
    ((handleGeocodeRequest o meta h body now s).1.code = some "INVALID_API_KEY" →
      (handleGeocodeRequest o meta h body now s).2.requestLogs =
        s.requestLogs ++ [mkLogRow meta now none 401 (some "Invalid API key")]) := by
  rcases hk : extractApiKey h with _ | apiKey
  · have he : handleGeocodeRequest o meta h body now s =
        (⟨401, some "MISSING_API_KEY", none⟩, s) := by
      unfold handleGeocodeRequest apiKeyAuth
      rw [hk]
    rw [he]
    refine ⟨by simp, fun _ => ⟨rfl, rfl⟩, by simp⟩
  · rcases hf : s.apiKeys.find? (fun k => k.keyHash == hashApiKey apiKey && k.isActive)
      with _ | info
    · have he : handleGeocodeRequest o meta h body now s =
          (⟨401, some "INVALID_API_KEY", none⟩,
            logRequest s meta now none 401 (some "Invalid API key")) := by
        unfold handleGeocodeRequest apiKeyAuth
        rw [hk]
        simp only [hf]
      rw [he]
      refine ⟨by simp [logRequest_logs], fun hc => absurd hc (by simp),
        fun _ => by simp [logRequest_logs]⟩
    · by_cases hc : (postRollover info now).tier ≠ .enterprise ∧
          (postRollover info now).currentUsage ≥ (postRollover info now).monthlyLimit
      · have he : handleGeocodeRequest o meta h body now s =
            (⟨429, some "USAGE_LIMIT_EXCEEDED", none⟩,
              logRequest (rolloverState s info now) meta now
                (some (postRollover info now).id) 429
                (some "Monthly usage limit exceeded")) := by
          unfold handleGeocodeRequest apiKeyAuth
          rw [hk]
          simp only [hf, if_pos hc]
        rw [he]
        refine ⟨?_, fun hmiss => absurd hmiss (by simp), fun habs => ?_⟩
        · simp [logRequest_logs, rolloverState_requestLogs]
        · exact absurd habs (by simp)
      · have he : handleGeocodeRequest o meta h body now s =
            match tieredRateLimit (postRollover info now) now (rolloverState s info now) with
            | (some rep, s2) => (rep, s2)
            | (none, s2) => geocodeHandler o meta now body (postRollover info now) s2 := by
          unfold handleGeocodeRequest apiKeyAuth
          rw [hk]
          simp only [hf, if_neg hc]
        rcases hrl : tieredRateLimit (postRollover info now) now (rolloverState s info now)
          with ⟨orep, s2⟩
        have hs2logs : s2.requestLogs = s.requestLogs := by
          have h1 := tieredRateLimit_requestLogs (postRollover info now) now
            (rolloverState s info now)
          rw [hrl] at h1
          rw [h1, rolloverState_requestLogs]
        cases orep with
        | some rep =>
          have hrep : rep = ⟨429, some "RATE_LIMIT_EXCEEDED", none⟩ := by
            have h2 := tieredRateLimit_reply (postRollover info now) now
              (rolloverState s info now)
            rw [hrl] at h2
            rcases h2 with h2 | h2
            · exact absurd h2 (by simp)
            · simpa using h2
          rw [he, hrl]
          subst hrep
          exact ⟨by simp [hs2logs], fun hmiss => absurd hmiss (by simp),
            fun habs => by simp at habs⟩
        | none =>
          rw [he, hrl]
          obtain ⟨hlen, hcode⟩ := geocodeHandler_spec o meta now body (postRollover info now) s2
          refine ⟨?_, fun hmiss => absurd hmiss (by simp), fun habs => ?_⟩
          · have hne : ¬ ((geocodeHandler o meta now body (postRollover info now) s2).1.code =
                some "MISSING_API_KEY" ∨
                (geocodeHandler o meta now body (postRollover info now) s2).1.code =
                some "RATE_LIMIT_EXCEEDED") := by
              rcases hcode with hc1 | hc1 | hc1 <;> rw [hc1] <;> simp
            rw [if_neg hne, hlen, hs2logs]
          · rcases hcode with hc1 | hc1 | hc1 <;> rw [hc1] at habs <;> simp at habs

/-- Witness for `requestLog_per_path` on the invalid-key path. -/
theorem requestLog_per_path_witness :
    (handleGeocodeRequest
        ⟨fun _ => .error "down", fun _ _ => .error "down", fun _ _ => .error "down"⟩
        ⟨"/v1/geocode", "POST", "1.2.3.4", none, none, 0⟩ ⟨none, some "nope"⟩
        ⟨"India Gate", none, none, none, none⟩ 5
        ⟨[], [], [], [], [], []⟩).2.requestLogs.length = 0 + 1 := by
  have h := (requestLog_per_path
    ⟨fun _ => .error "down", fun _ _ => .error "down", fun _ _ => .error "down"⟩
    ⟨"/v1/geocode", "POST", "1.2.3.4", none, none, 0⟩ ⟨none, some "nope"⟩
    ⟨"India Gate", none, none, none, none⟩ 5 ⟨[], [], [], [], [], []⟩).1
  simpa using h

/-! ## C8 — zero candidates: error classification on the geocode route -/

/-- C8 (amended): on a cache miss with zero candidates from the
collaborator, the model throws the dedicated no-results message — but the
route's catch-all reports it as 500 `GEOCODING_ERROR`, the same class as
upstream failures, not as a 400-equivalent `NoResultsFound`. -/
theorem no_results_maps_to_500 (o : NominatimOracles) (meta : RequestMeta) (now : ℕ)
    (body : GeocodeRequest) (info : ApiKeyRow) (s : SysState)
    (hb : ¬ (jsTrim body.address) = "")
    (hmiss : cacheRead s.memCache s.memCacheExpiry (.geocodeIn body) now = none)
    (hsvc : o.search body = .ok []) :
    (geocode o now body s).1 =
      .error "Geocoding failed: No results found for the provided address" ∧
    (geocodeHandler o meta now body info s).1 =
      ⟨500, some "GEOCODING_ERROR",
        some "Geocoding failed: No results found for the provided address"⟩ := by
  have hg : geocode o now body s =
      (.error "Geocoding failed: No results found for the provided address",
        cacheReadState s (.geocodeIn body) now) := by
    unfold geocode
    rw [if_neg hb]
    simp only [hmiss, hsvc]
  refine ⟨by rw [hg], ?_⟩
  unfold geocodeHandler
  rw [if_neg hb, hg]

/-- Witness for `no_results_maps_to_500`. -/
theorem no_results_maps_to_500_witness :
    (geocodeHandler ⟨fun _ => .ok [], fun _ _ => .error "x", fun _ _ => .error "x"⟩
        ⟨"/v1/geocode", "POST", "ip", none, none, 0⟩ 5
        ⟨"India Gate", none, none, none, none⟩
        ⟨1, "k1", "p", .free, 1000, 0, 999999, true⟩
        ⟨[⟨1, "k1", "p", .free, 1000, 0, 999999, true⟩], [], [], [], [], []⟩).1 =
      ⟨500, some "GEOCODING_ERROR",
        some "Geocoding failed: No results found for the provided address"⟩ :=
  (no_results_maps_to_500 ⟨fun _ => .ok [], fun _ _ => .error "x", fun _ _ => .error "x"⟩
    ⟨"/v1/geocode", "POST", "ip", none, none, 0⟩ 5
    ⟨"India Gate", none, none, none, none⟩
    ⟨1, "k1", "p", .free, 1000, 0, 999999, true⟩
    ⟨[⟨1, "k1", "p", .free, 1000, 0, 999999, true⟩], [], [], [], [], []⟩
    (by decide) rfl rfl).2

/-- C8 (counterexample): a well-formed, authenticated geocode request for
which the collaborator returns zero candidates is answered 500
`GEOCODING_ERROR` — not a 400-equivalent `NoResultsFound`. -/
theorem no_results_is_500_counterexample :
    (handleGeocodeRequest
        ⟨fun _ => .ok [], fun _ _ => .error "x", fun _ _ => .error "x"⟩
        ⟨"/v1/geocode", "POST", "ip", none, none, 0⟩ ⟨none, some "k1"⟩
        ⟨"India Gate", none, none, none, none⟩ 5
        ⟨[⟨1, "k1", "p", .free, 1000, 0, 999999, true⟩], [], [], [], [], []⟩).1 =
      ⟨500, some "GEOCODING_ERROR",
        some "Geocoding failed: No results found for the provided address"⟩ := by
  rfl

/-! ## C6 — validate: structured result, cumulative checks, decode gating -/

/-- The structural well-formedness of a `ValidationResponse`: `isValid` is
false exactly when the `errors` field is present, and a present `errors`
array is non-empty. -/
def WfValid (v : ValidationResponse) : Prop :=
  (v.isValid = false ↔ v.errors ≠ none) ∧ (∀ l, v.errors = some l → l ≠ [])

theorem alookup_mem {α β : Type} [DecidableEq α] (l : List (α × β)) (k : α) (v : β)
    (h : alookup l k = some v) : (k, v) ∈ l := by
  unfold alookup at h
  rcases hf : l.find? (fun p => p.1 = k) with _ | p
  · rw [hf] at h
    cases h
  · rw [hf] at h
    simp at h
    have hmem := List.mem_of_find?_eq_some hf
    have hp : p.1 = k := by simpa using List.find?_some hf
    cases p with
    | mk a b =>
      simp only at hp h
      rw [← hp, ← h]
      exact hmem

theorem cacheRead_some_mem (mc : List (OpInput × CachedVal)) (me : List (OpInput × ℕ))
    (k : OpInput) (now : ℕ) (v : CachedVal)
    (h : cacheRead mc me k now = some v) : (k, v) ∈ mc := by
  unfold cacheRead at h
  split at h
  · split at h
    · cases h
    · exact alookup_mem _ _ _ h
  · exact alookup_mem _ _ _ h

theorem validateCore_wf (code : String) : WfValid (validateCore code).1 := by
  unfold validateCore WfValid
  by_cases hs : structuralErrors code = []
  · rcases hd : getLatLonFromDIGIPIN (jsTrim code) with _ | p <;> simp [hs, hd]
  · simp [hs]

/-- C6: `validate` always returns a structured result — `isValid` is false
exactly when an `errors` array is present (and a present array is
non-empty); on the empty input it returns the required-error response; on a
cache miss it returns exactly the `validateCore` computation, in which the
decode is attempted iff there is no structural error, a structural failure
reports exactly the structural errors, and the length check and the
character check both contribute when both fail. -/
theorem validate_spec (now : ℕ) (code : String) (s : SysState)
    (hcache : ∀ u, (OpInput.validateIn code, CachedVal.valid u) ∈ s.memCache →
      WfValid u) :
    WfValid (validate now code s).1 ∧
    ((jsTrim code) = "" → (validate now code s).1 = ⟨false, code, some [requiredErrMsg]⟩) ∧
    (¬ (jsTrim code) = "" →
      cacheRead s.memCache s.memCacheExpiry (.validateIn code) now = none →
      ((validate now code s).1 = (validateCore code).1 ∧
        ((validateCore code).2 = true ↔ structuralErrors code = []) ∧
        (structuralErrors code ≠ [] →
          (validateCore code).1.errors = some (structuralErrors code)) ∧
        (((jsTrim code).length < 6 ∨ (jsTrim code).length > 20) →
          ¬ (jsTrim code).data.all validDigipinChar →
          structuralErrors code = [lengthErrMsg, charErrMsg]))) := by
  by_cases he : (jsTrim code) = ""
  · refine ⟨?_, fun _ => ?_, fun hne _ => absurd he hne⟩
    · unfold validate
      rw [if_pos he]
      simp [WfValid]
    · unfold validate
      rw [if_pos he]
  · rcases hm : cacheRead s.memCache s.memCacheExpiry (.validateIn code) now with _ | v
    · have heq : (validate now code s).1 = (validateCore code).1 := by
        unfold validate
        rw [if_neg he]
        simp only [hm]
      refine ⟨heq ▸ validateCore_wf code, fun habs => absurd habs he,
        fun _ _ => ⟨heq, ?_, ?_, ?_⟩⟩
      · by_cases hs : structuralErrors code = []
        · rcases hd : getLatLonFromDIGIPIN (jsTrim code) with _ | p <;>
            simp [validateCore, hs, hd]
        · simp [validateCore, hs]
      · intro hserr
        simp [validateCore, hserr]
      · intro hlen hchar
        simp [structuralErrors, if_pos hlen, hchar]
    · refine ⟨?_, fun habs => absurd habs he, fun _ hmiss => ?_⟩
      · have hval : (validate now code s).1 =
            match v with
            | .valid u => u
            | _ => ⟨false, code, some ["Validation failed: Unknown error"]⟩ := by
          unfold validate
          rw [if_neg he]
          simp only [hm]
          cases v <;> rfl
        rw [hval]
        cases v with
        | valid u => exact hcache u (cacheRead_some_mem _ _ _ _ _ hm)
        | geo r => simp [WfValid]
        | coord r => simp [WfValid]
        | rev r => simp [WfValid]
        | auto l => simp [WfValid]
      · cases hmiss

/-- Witness for `validate_spec` at input `"AB"` on the empty state. -/
theorem validate_spec_witness :
    WfValid (validate 0 "AB" ⟨[], [], [], [], [], []⟩).1 ∧
    (validate 0 "AB" ⟨[], [], [], [], [], []⟩).1 = (validateCore "AB").1 := by
  have h := validate_spec 0 "AB" ⟨[], [], [], [], [], []⟩ (by intro u hu; simp at hu)
  exact ⟨h.1, (h.2.2 (by decide) rfl).1⟩

/-! ## C7 — batch geocoding -/

/-- Whether a batch entry succeeded. -/
def isOkItem (it : BatchItem) : Bool :=
  match it.result with
  | .ok _ => true
  | .error _ => false

theorem batchLoop_spec (o : NominatimOracles) (now : ℕ) :
    ∀ (reqs : List GeocodeRequest) (s : SysState),
      ((batchLoop o now reqs s).1.map (·.input) = reqs) ∧
      ((batchLoop o now reqs s).2.1 =
        ((batchLoop o now reqs s).1.filter isOkItem).length) ∧
      ((batchLoop o now reqs s).2.2.1 =
        ((batchLoop o now reqs s).1.filter (fun it => ! isOkItem it)).length) ∧
      ((batchLoop o now reqs s).2.1 + (batchLoop o now reqs s).2.2.1 = reqs.length) := by
  intro reqs
  induction reqs with
  | nil => intro s; simp [batchLoop]
  | cons a rest ih =>
    intro s
    obtain ⟨ih1, ih2, ih3, ih4⟩ := ih ((geocode o now a s).2)
    rcases hr : (geocode o now a s).1 with e | resp
    · have hitem : isOkItem ⟨a, .error e⟩ = false := rfl
      refine ⟨?_, ?_, ?_, ?_⟩
      · simp only [batchLoop, hr, List.map_cons]
        rw [ih1]
      · simp only [batchLoop, hr, List.filter_cons, hitem]
        simpa using ih2
      · simp only [batchLoop, hr, List.filter_cons, hitem]
        simp only [Bool.not_false, if_pos rfl, List.length_cons]
        simpa using ih3
      · simp only [batchLoop, hr, List.length_cons]
        omega
    · have hitem : isOkItem ⟨a, .ok resp⟩ = true := rfl
      refine ⟨?_, ?_, ?_, ?_⟩
      · simp only [batchLoop, hr, List.map_cons]
        rw [ih1]
      · simp only [batchLoop, hr, List.filter_cons, hitem]
        simpa using ih2
      · simp only [batchLoop, hr, List.filter_cons, hitem]
        simpa using ih3
      · simp only [batchLoop, hr, List.length_cons]
        omega

/-- C7: a non-empty batch of at most 100 requests always succeeds as a
whole; the results match the input list in order (so no per-entry failure
aborts the rest), the success and error counters count exactly the ok and
error entries, and `totalProcessed = successCount + errorCount = length of
the input`.  The empty batch and an over-100 batch fail with the
corresponding messages. -/
theorem batchGeocode_spec (o : NominatimOracles) (now : ℕ)
    (reqs : List GeocodeRequest) (s : SysState)
    (h1 : reqs ≠ []) (h2 : reqs.length ≤ 100) :
    (∃ b, (batchGeocode o now reqs s).1 = .ok b ∧
      b.results.map (·.input) = reqs ∧
      b.totalProcessed = reqs.length ∧
      b.successCount + b.errorCount = b.totalProcessed ∧
      b.successCount = (b.results.filter isOkItem).length ∧
      b.errorCount = (b.results.filter (fun it => ! isOkItem it)).length) ∧
    (∀ s2 : SysState, (batchGeocode o now [] s2).1 =
      .error "Batch geocoding failed: Addresses array is required") ∧
    (∀ (s2 : SysState) (reqs2 : List GeocodeRequest), reqs2.length > 100 →
      (batchGeocode o now reqs2 s2).1 =
        .error "Batch geocoding failed: Maximum 100 addresses allowed per batch request") := by
  refine ⟨?_, fun s2 => rfl, fun s2 reqs2 hlen => ?_⟩
  · obtain ⟨hb1, hb2, hb3, hb4⟩ := batchLoop_spec o now reqs s
    have hn0 : ¬ reqs.length = 0 := by
      simpa using (List.length_pos.mpr h1).ne.symm
    have hn100 : ¬ reqs.length > 100 := not_lt.mpr h2
    refine ⟨⟨(batchLoop o now reqs s).1, reqs.length,
      (batchLoop o now reqs s).2.1, (batchLoop o now reqs s).2.2.1⟩, ?_, hb1, rfl, ?_, hb2, hb3⟩
    · unfold batchGeocode
      rw [if_neg hn0, if_neg hn100]
    · exact hb4
  · unfold batchGeocode
    rw [if_neg (by omega), if_pos hlen]

/-- Witness for `batchGeocode_spec`: a three-entry batch whose middle entry
has an empty address (and therefore fails in isolation). -/
theorem batchGeocode_spec_witness :
    ∃ b, (batchGeocode
        ⟨fun _ => .error "down", fun _ _ => .error "down", fun _ _ => .error "down"⟩ 0
        [⟨"a st", none, none, none, none⟩, ⟨"", none, none, none, none⟩,
          ⟨"c st", none, none, none, none⟩]
        ⟨[], [], [], [], [], []⟩).1 = .ok b ∧
      b.results.map (·.input) =
        [⟨"a st", none, none, none, none⟩, ⟨"", none, none, none, none⟩,
          ⟨"c st", none, none, none, none⟩] ∧
      b.totalProcessed = 3 ∧
      b.successCount + b.errorCount = b.totalProcessed ∧
      b.successCount = (b.results.filter isOkItem).length ∧
      b.errorCount = (b.results.filter (fun it => ! isOkItem it)).length := by
  obtain ⟨⟨b, hb⟩, -, -⟩ := batchGeocode_spec
    ⟨fun _ => .error "down", fun _ _ => .error "down", fun _ _ => .error "down"⟩ 0
    [⟨"a st", none, none, none, none⟩, ⟨"", none, none, none, none⟩,
      ⟨"c st", none, none, none, none⟩]
    ⟨[], [], [], [], [], []⟩ (by simp) (by simp)
  exact ⟨b, hb⟩

/-! ## C10 — the durable cache table is write-only on the response path -/

/-- Two states that agree on everything except the contents of the durable
`digipin_cache` table. -/
def agreeExceptDbCache (s1 s2 : SysState) : Prop :=
  s1.apiKeys = s2.apiKeys ∧ s1.requestLogs = s2.requestLogs ∧
  s1.memCache = s2.memCache ∧ s1.memCacheExpiry = s2.memCacheExpiry ∧
  s1.rateStore = s2.rateStore

/-- C10: every public `DigiPinModel` operation reads only the in-process
maps — for any two states differing only in the durable `digipin_cache`
table, each operation returns the identical response. -/
theorem dbCache_noninterference (o : NominatimOracles) (now : ℕ)
    (req : GeocodeRequest) (lat lon : ℚ) (dp code q : String) (lim : ℕ)
    (s1 s2 : SysState) (hag : agreeExceptDbCache s1 s2) :
    (geocode o now req s1).1 = (geocode o now req s2).1 ∧
    (coordinatesToDigiPin now lat lon s1).1 = (coordinatesToDigiPin now lat lon s2).1 ∧
    (reverseGeocode o now dp s1).1 = (reverseGeocode o now dp s2).1 ∧
    (validate now code s1).1 = (validate now code s2).1 ∧
    (getAutocompleteSuggestions o now q lim s1).1 =
      (getAutocompleteSuggestions o now q lim s2).1 := by
  obtain ⟨ha, hl, hmc, hme, hrs⟩ := hag
  refine ⟨?_, ?_, ?_, ?_, ?_⟩
  · unfold geocode
    by_cases hb : (jsTrim req.address) = ""
    · simp [hb]
    · simp only [if_neg hb, hmc, hme]
      rcases hm : cacheRead s2.memCache s2.memCacheExpiry (OpInput.geocodeIn req) now
        with _ | v
      · simp only [hm]
        rcases hs : o.search req with e | l
        · simp
        · cases l with
          | nil => simp
          | cons best others =>
            rcases hd : getDIGIPINFromLatLon best.latitude best.longitude with _ | pin <;>
              simp [hd]
      · cases v <;> simp [hm]
  · unfold coordinatesToDigiPin
    by_cases hb1 : lat < -90 ∨ lat > 90
    · simp [hb1]
    · by_cases hb2 : lon < -180 ∨ lon > 180
      · simp [hb1, hb2]
      · simp only [if_neg hb1, if_neg hb2, hmc, hme]
        rcases hm : cacheRead s2.memCache s2.memCacheExpiry (OpInput.coordIn lat lon) now
          with _ | v
        · rcases hd : getDIGIPINFromLatLon lat lon with _ | pin <;> simp [hm, hd]
        · cases v <;> simp [hm]
  · unfold reverseGeocode
    by_cases hb : (jsTrim dp) = ""
    · simp [hb]
    · simp only [if_neg hb, hmc, hme]
      rcases hm : cacheRead s2.memCache s2.memCacheExpiry (OpInput.reverseIn dp) now
        with _ | v
      · simp only [hm]
        rcases hd : getLatLonFromDIGIPIN (jsTrim dp) with _ | p
        · simp
        · rcases hr : o.reverse p.1 p.2 with e | rr <;> simp [hd, hr]
      · cases v <;> simp [hm]
  · unfold validate
    by_cases hb : (jsTrim code) = ""
    · simp [hb]
    · simp only [if_neg hb, hmc, hme]
      rcases hm : cacheRead s2.memCache s2.memCacheExpiry (OpInput.validateIn code) now
        with _ | v
      · simp [hm]
      · cases v <;> simp [hm]
  · unfold getAutocompleteSuggestions
    by_cases hb : (jsTrim q).length < 3
    · simp [hb]
    · simp only [if_neg hb, hmc, hme]
      rcases hm : cacheRead s2.memCache s2.memCacheExpiry (OpInput.autoIn q lim) now
        with _ | v
      · rcases hs : o.auto q lim with e | l <;> simp [hm, hs]
      · cases v <;> simp [hm]

/-- Witness for `dbCache_noninterference`: states with empty and non-empty
durable cache yield the same validate response. -/
theorem dbCache_noninterference_witness :
    (validate 0 "AB3456" ⟨[], [], [], [], [], []⟩).1 =
      (validate 0 "AB3456"
        ⟨[], [], [⟨.validateIn "AB3456", "validate", .validateIn "AB3456",
          .valid ⟨true, "AB3456", none⟩, 99⟩], [], [], []⟩).1 := by
  have h := dbCache_noninterference
    ⟨fun _ => .error "x", fun _ _ => .error "x", fun _ _ => .error "x"⟩ 0
    ⟨"a", none, none, none, none⟩ 0 0 "d" "AB3456" "q" 5
    ⟨[], [], [], [], [], []⟩
    ⟨[], [], [⟨.validateIn "AB3456", "validate", .validateIn "AB3456",
      .valid ⟨true, "AB3456", none⟩, 99⟩], [], [], []⟩
    ⟨rfl, rfl, rfl, rfl, rfl⟩
  exact h.2.2.2.1

/-- Witness for `recordUsage_spec`: key id 7, status 200, three repeats on a
one-key store. -/
theorem recordUsage_spec_witness :
    currentUsageOf
      (repeatLog ⟨"/v1/geocode", "POST", "ip", none, none, 0⟩ 5 7 200 3
        ⟨[⟨7, "h", "p", .free, 1000, 40, 99, true⟩], [], [], [], [], []⟩) 7 =
      some 43 := by
  have h := recordUsage_spec
    ⟨[⟨7, "h", "p", .free, 1000, 40, 99, true⟩], [], [], [], [], []⟩
    ⟨"/v1/geocode", "POST", "ip", none, none, 0⟩ 5 none 7 200 3 (by decide)
  rw [h.2.2.2.2.2 (by decide)]
  rfl

end DigipinSaaS
